import Mathlib

/-!
Verification of the DPA3 repflow descriptor core:
the smoothed environment matrix builder (`deepmd/pt/model/descriptor/env_mat.py`)
and the repflow descriptor block (`deepmd/pt/model/descriptor/repflows.py`).

Tensor semantics are embedded slot-wise: a tensor of shape
`[bsz, natoms, nnei, ...]` becomes a function `ℕ → ℕ → ℕ → ...`, and the
elementwise torch operations become pointwise real arithmetic.  Boolean-mask
indexing (`t[mask]`) is embedded as a row-major filter over the index ranges.
-/

set_option maxHeartbeats 1000000

namespace DPA3

noncomputable section

/-- A 3-component real vector: one `(x, y, z)` row of a coordinate tensor. -/
structure V3 where
  vx : ℝ
  vy : ℝ
  vz : ℝ

@[ext] theorem V3.ext_comp {a b : V3} (hx : a.vx = b.vx) (hy : a.vy = b.vy)
    (hz : a.vz = b.vz) : a = b := by
  cases a; cases b; simp_all

instance : Add V3 := ⟨fun a b => ⟨a.vx + b.vx, a.vy + b.vy, a.vz + b.vz⟩⟩

instance : Sub V3 := ⟨fun a b => ⟨a.vx - b.vx, a.vy - b.vy, a.vz - b.vz⟩⟩

instance : Zero V3 := ⟨⟨0, 0, 0⟩⟩

@[simp] theorem V3.add_def (a b : V3) :
    a + b = ⟨a.vx + b.vx, a.vy + b.vy, a.vz + b.vz⟩ := rfl

@[simp] theorem V3.sub_def (a b : V3) :
    a - b = ⟨a.vx - b.vx, a.vy - b.vy, a.vz - b.vz⟩ := rfl

@[simp] theorem V3.zero_def : (0 : V3) = ⟨0, 0, 0⟩ := rfl

/-- Scalar multiplication of a 3-vector (`c * v` broadcast over the last axis). -/
def vsmul (c : ℝ) (v : V3) : V3 := ⟨c * v.vx, c * v.vy, c * v.vz⟩

/-- Euclidean dot product of two 3-vectors (`torch.matmul` of a row with a column). -/
def vdot (a b : V3) : ℝ := a.vx * b.vx + a.vy * b.vy + a.vz * b.vz

/-- Squared Euclidean norm. -/
def normSq (v : V3) : ℝ := vdot v v

/-- Euclidean norm: `torch.linalg.norm(v, dim=-1)` for one 3-vector row. -/
def vnorm (v : V3) : ℝ := Real.sqrt (normSq v)

@[simp] theorem vsmul_zero_left (v : V3) : vsmul 0 v = 0 := by
  simp [vsmul]

@[simp] theorem normSq_zero : normSq (0 : V3) = 0 := by
  simp [normSq, vdot]

@[simp] theorem vnorm_zero : vnorm (0 : V3) = 0 := by
  simp [vnorm, normSq, vdot]

theorem normSq_nonneg (v : V3) : 0 ≤ normSq v := by
  have := sq_nonneg v.vx
  have := sq_nonneg v.vy
  have := sq_nonneg v.vz
  simp only [normSq, vdot]
  nlinarith

theorem vnorm_nonneg (v : V3) : 0 ≤ vnorm v := Real.sqrt_nonneg _

/-- The epsilon `1e-6` used by the angle-direction normalization and the
cosine rescaling in `repflows.py`. -/
def eps6 : ℝ := 1 / 1000000

/-- Modelled from the spec: `compute_smooth_weight` lives in
`deepmd.pt.utils.preprocess`, which is imported by `env_mat.py` but is not part
of this repository snapshot.  Spec 4.1: the polynomial variant is a
degree-controlled blend of powers of `u = (r - r_smooth)/(r_cut - r_smooth)`,
equal to `1` for `r ≤ r_smooth`, decaying to exactly `0` for `r ≥ r_cut`. -/
def compute_smooth_weight (r rmin rmax : ℝ) : ℝ :=
  if r ≤ rmin then 1
  else if rmax ≤ r then 0
  else
    let u := (r - rmin) / (rmax - rmin)
    u ^ 3 * (-6 * u ^ 2 + 15 * u - 10) + 1

/-- Modelled from the spec: `compute_exp_sw` lives in
`deepmd.pt.utils.preprocess`, which is not part of this repository snapshot.
Spec 4.1 and the repflows docstring: the exponential switch is
`s(r) = exp(-exp(20 * (r - rcut_smth) / rcut_smth))` for `r ≤ rcut`,
clamped to exactly `0` beyond `rcut`. -/
def compute_exp_sw (r rmin rmax : ℝ) : ℝ :=
  if r ≤ rmax then Real.exp (-(Real.exp (20 * (r - rmin) / rmin))) else 0

/-- The tensor inputs of `_make_env_mat` (env_mat.py lines 11-19): a neighbor
list of shape `[bsz, natoms, nnei]` with sentinel `-1` for padded slots, and
an extended coordinate tensor reshaped to `[bsz, nall, 3]`.  The shape sizes
are carried alongside the index functions. -/
structure EnvConf where
  nlist : ℕ → ℕ → ℕ → ℤ
  coord : ℕ → ℕ → V3
  bsz : ℕ
  natoms : ℕ
  nnei : ℕ
  nall : ℕ

/-- The scalar parameters of `_make_env_mat`.  The field `ruct_smth` keeps the
source spelling of the smoothing-onset radius argument. -/
structure EnvParams where
  rcut : ℝ
  ruct_smth : ℝ
  protection : ℝ
  use_exp_switch : Bool

/-- env_mat.py line 33: `mask = nlist >= 0`, as the 0/1 real factor the torch
code multiplies with. -/
def mask01 (g : EnvConf) (b i j : ℕ) : ℝ :=
  if 0 ≤ g.nlist b i j then 1 else 0

/-- env_mat.py line 37: `nlist = torch.where(mask, nlist, nall)` — invalid
(sentinel) neighbor indices are replaced by the out-of-range index `nall`. -/
def nlistW (g : EnvConf) (b i j : ℕ) : ℕ :=
  if 0 ≤ g.nlist b i j then (g.nlist b i j).toNat else g.nall

/-- env_mat.py line 49: `coord_pad = concat([coord, coord[:, -1:, :] + rcut])`
— the coordinate tensor with one synthetic padding atom appended, placed at
the last extended atom's position plus `rcut` in each component. -/
def coordPad (p : EnvParams) (g : EnvConf) (b k : ℕ) : V3 :=
  if k < g.nall then g.coord b k
  else g.coord b (g.nall - 1) + ⟨p.rcut, p.rcut, p.rcut⟩

/-- env_mat.py lines 52-53: `coord_r = gather(coord_pad, 1, index)` — the
neighbor coordinate of slot `(b, i, j)`. -/
def coordR (p : EnvParams) (g : EnvConf) (b i j : ℕ) : V3 :=
  coordPad p g b (nlistW g b i j)

/-- env_mat.py line 56: `diff = coord_r - coord_l`, the raw displacement
vector neighbor minus center. -/
def diffRaw (p : EnvParams) (g : EnvConf) (b i j : ℕ) : V3 :=
  coordR p g b i j - g.coord b i

/-- env_mat.py line 59: `length = norm(diff)`. -/
def lengthRaw (p : EnvParams) (g : EnvConf) (b i j : ℕ) : ℝ :=
  vnorm (diffRaw p g b i j)

/-- env_mat.py line 62: `length = length + ~mask` — padded slots get `1`
added to their distance before any division or switch evaluation. -/
def lengthUsed (p : EnvParams) (g : EnvConf) (b i j : ℕ) : ℝ :=
  lengthRaw p g b i j + (if 0 ≤ g.nlist b i j then 0 else 1)

/-- env_mat.py line 72: the radial term `t0 = 1 / (length + protection)`. -/
def t0 (p : EnvParams) (g : EnvConf) (b i j : ℕ) : ℝ :=
  1 / (lengthUsed p g b i j + p.protection)

/-- env_mat.py line 76: the angular term
`t1 = diff / (length + protection) ** 2`. -/
def t1 (p : EnvParams) (g : EnvConf) (b i j : ℕ) : V3 :=
  vsmul (1 / (lengthUsed p g b i j + p.protection) ^ 2) (diffRaw p g b i j)

/-- env_mat.py lines 82-86: the switch value before mask application, computed
by the polynomial or the exponential variant on the (offset) length. -/
def weightPre (p : EnvParams) (g : EnvConf) (b i j : ℕ) : ℝ :=
  if p.use_exp_switch then compute_exp_sw (lengthUsed p g b i j) p.ruct_smth p.rcut
  else compute_smooth_weight (lengthUsed p g b i j) p.ruct_smth p.rcut

/-- env_mat.py line 89: `weight = weight * mask` — the third returned output
of `_make_env_mat`. -/
def weightOf (p : EnvParams) (g : EnvConf) (b i j : ℕ) : ℝ :=
  weightPre p g b i j * mask01 g b i j

/-- env_mat.py line 100 (full mode): one 4-component row
`[t0, t1x, t1y, t1z] * weight` of the raw environment matrix. -/
def envRow4 (p : EnvParams) (g : EnvConf) (b i j : ℕ) (c : Fin 4) : ℝ :=
  (if c = 0 then t0 p g b i j
   else if c = 1 then (t1 p g b i j).vx
   else if c = 2 then (t1 p g b i j).vy
   else (t1 p g b i j).vz) * weightOf p g b i j

/-- env_mat.py line 96 (radial-only mode): the 1-component row
`t0 * weight`. -/
def envRow1 (p : EnvParams) (g : EnvConf) (b i j : ℕ) : ℝ :=
  t0 p g b i j * weightOf p g b i j

/-- env_mat.py line 106: the second returned output `diff * mask` — the
displacement with padded slots zeroed. -/
def diffOut (p : EnvParams) (g : EnvConf) (b i j : ℕ) : V3 :=
  vsmul (mask01 g b i j) (diffRaw p g b i j)

/-- The per-type normalization statistics and the atom types used by
`prod_env_mat` (env_mat.py lines 109-119): `mean`/`stddev` of shape
`[ntypes, nnei, 4]` and the local atom types `atype` of shape
`[nframes, nloc]`. -/
structure StatsConf where
  atype : ℕ → ℕ → ℕ
  mean : ℕ → ℕ → Fin 4 → ℝ
  stddev : ℕ → ℕ → Fin 4 → ℝ

/-- env_mat.py lines 164-169: `prod_env_mat`'s normalized environment matrix
`(raw - mean[atype]) / stddev[atype]`, broadcast per neighbor slot.  The other
two outputs of `prod_env_mat` are `diffOut` and `weightOf` unchanged. -/
def envNorm (p : EnvParams) (g : EnvConf) (st : StatsConf) (b i j : ℕ)
    (c : Fin 4) : ℝ :=
  (envRow4 p g b i j c - st.mean (st.atype b i) j c) /
    st.stddev (st.atype b i) j c

/-- Modelled from the spec: `PairExcludeMask` lives in
`deepmd.pt.utils.exclude_mask`, which is not part of this repository snapshot.
Spec 6: excluded type-pairs are "pairs of element types forced to have no
interaction, realized by forcing their neighbor-list entries to the padding
sentinel before any geometry is built", applied symmetrically.  A sentinel
slot carries no type pair and keeps mask value 1. -/
def excludeMaskOf (excl : List (ℕ × ℕ)) (eatype : ℕ → ℕ → ℕ)
    (nl : ℕ → ℕ → ℕ → ℤ) (b i j : ℕ) : Bool :=
  if nl b i j = -1 then true
  else if (eatype b i, eatype b (nl b i j).toNat) ∈ excl ∨
          (eatype b (nl b i j).toNat, eatype b i) ∈ excl then false
  else true

/-- repflows.py line 605: `nlist = torch.where(exclude_mask != 0, nlist, -1)`
— excluded type-pair slots are forced to the sentinel before any geometry is
built. -/
def applyExclude (excl : List (ℕ × ℕ)) (eatype : ℕ → ℕ → ℕ)
    (nl : ℕ → ℕ → ℕ → ℤ) : ℕ → ℕ → ℕ → ℤ :=
  fun b i j => if excludeMaskOf excl eatype nl b i j then nl b i j else -1

/-- repflows.py lines 642-646: the angle neighbor list.  The edge neighbor
list is restricted to its first `a_sel` slots (a domain restriction enforced
by the enumeration below) and every slot whose masked displacement has norm
not strictly below the angle cutoff `a_rcut = pA.rcut` is forced to the
sentinel: `a_nlist = where(norm(diff) < a_rcut, nlist[:, :, :a_sel], -1)`. -/
def aNlist (pE pA : EnvParams) (g : EnvConf) (b i j : ℕ) : ℤ :=
  if vnorm (diffOut pE g b i j) < pA.rcut then g.nlist b i j else -1

/-- The `EnvConf` of the second (angle) environment-matrix pass
(repflows.py lines 649-659): same coordinates, the angle neighbor list, and
the neighbor axis truncated to `a_sel` slots. -/
def aConf (pE pA : EnvParams) (g : EnvConf) (a_sel : ℕ) : EnvConf :=
  {g with nlist := aNlist pE pA g, nnei := a_sel}

/-- repflows.py lines 649-665: the angle smoothing weight `a_sw` — the switch
output of the second environment pass, squeezed and `masked_fill`ed to `0`
wherever `a_nlist == -1`. -/
def aSw (pE pA : EnvParams) (g : EnvConf) (a_sel : ℕ) (b i j : ℕ) : ℝ :=
  if aNlist pE pA g b i j ≠ -1 then weightOf pA (aConf pE pA g a_sel) b i j
  else 0

/-- repflows.py line 649: `a_diff`, the masked displacement returned by the
second (angle-cutoff) environment pass. -/
def aDiff (pE pA : EnvParams) (g : EnvConf) (a_sel : ℕ) (b i j : ℕ) : V3 :=
  diffOut pA (aConf pE pA g a_sel) b i j

/-- repflows.py lines 700-702: the direction vectors
`a_diff / (norm(a_diff) + 1e-6)`. -/
def normalizedDiff (pE pA : EnvParams) (g : EnvConf) (a_sel : ℕ)
    (b i j : ℕ) : V3 :=
  vsmul (1 / (vnorm (aDiff pE pA g a_sel b i j) + eps6))
    (aDiff pE pA g a_sel b i j)

/-- repflows.py line 708: the pairwise cosine matrix
`cosine_ij = matmul(normalized_diff_i, normalized_diff_j) * (1 - 1e-6)`. -/
def cosineIJ (pE pA : EnvParams) (g : EnvConf) (a_sel : ℕ)
    (b i j k : ℕ) : ℝ :=
  vdot (normalizedDiff pE pA g a_sel b i j) (normalizedDiff pE pA g a_sel b i k)
    * (1 - eps6)

/-- repflows.py line 709: `angle_input = cosine_ij / sqrt(pi)`. -/
def angleInputOf (pE pA : EnvParams) (g : EnvConf) (a_sel : ℕ)
    (b i j k : ℕ) : ℝ :=
  cosineIJ pE pA g a_sel b i j k / Real.sqrt Real.pi

/-- Row-major enumeration of a `[n1, n2, n3]` index space, the order in which
torch boolean-mask indexing flattens a dense tensor. -/
def idx3 (n1 n2 n3 : ℕ) : List (ℕ × ℕ × ℕ) :=
  (List.range n1).flatMap fun b =>
    (List.range n2).flatMap fun i =>
      (List.range n3).map fun j => (b, i, j)

/-- Row-major enumeration of a `[n1, n2, n3, n4]` index space. -/
def idx4 (n1 n2 n3 n4 : ℕ) : List (ℕ × ℕ × ℕ × ℕ) :=
  (List.range n1).flatMap fun b =>
    (List.range n2).flatMap fun i =>
      (List.range n3).flatMap fun j =>
        (List.range n4).map fun k => (b, i, j, k)

/-- Torch boolean-mask indexing `t[mask]` on a `[n1, n2, n3]` tensor: keep
the entries whose mask is true, in row-major order. -/
def maskSelect3 {α : Type} (n1 n2 n3 : ℕ) (vals : ℕ → ℕ → ℕ → α)
    (mask : ℕ → ℕ → ℕ → Bool) : List α :=
  ((idx3 n1 n2 n3).filter fun q => mask q.1 q.2.1 q.2.2).map
    fun q => vals q.1 q.2.1 q.2.2

/-- repflows.py line 743: the pair mask
`a_nlist_mask[:, :, :, None] & a_nlist_mask[:, :, None, :]` — both slots of
an angle pair must be valid angle neighbors. -/
def aPairMask (pE pA : EnvParams) (g : EnvConf) (b i j k : ℕ) : Bool :=
  decide (aNlist pE pA g b i j ≠ -1) && decide (aNlist pE pA g b i k ≠ -1)

/-- The row-major list of `(frame, center, slot_i, slot_j)` indices kept by
the dynamic-mode angle compaction (repflows.py lines 741-747). -/
def keptAngleIdx (pE pA : EnvParams) (g : EnvConf) (a_sel : ℕ) :
    List (ℕ × ℕ × ℕ × ℕ) :=
  (idx4 g.bsz g.natoms a_sel a_sel).filter
    fun q => aPairMask pE pA g q.1 q.2.1 q.2.2.1 q.2.2.2

/-- repflows.py line 747: the compacted angle weights
`(a_sw[:, :, :, None] * a_sw[:, :, None, :])[a_nlist_mask]`. -/
def compactASw (pE pA : EnvParams) (g : EnvConf) (a_sel : ℕ) : List ℝ :=
  (keptAngleIdx pE pA g a_sel).map
    fun q => aSw pE pA g a_sel q.1 q.2.1 q.2.2.1 *
      aSw pE pA g a_sel q.1 q.2.1 q.2.2.2

/-- repflows.py line 745: the compacted angle inputs
`angle_input[a_nlist_mask]`. -/
def compactAngleInput (pE pA : EnvParams) (g : EnvConf) (a_sel : ℕ) :
    List ℝ :=
  (keptAngleIdx pE pA g a_sel).map
    fun q => angleInputOf pE pA g a_sel q.1 q.2.1 q.2.2.1 q.2.2.2

/-- The constructor-time errors of `DescrptBlockRepflows.__init__`
(repflows.py lines 342-349). -/
inductive RepflowsInitError where
  | notImplementedError : String → RepflowsInitError
  | valueError : String → RepflowsInitError
deriving DecidableEq

/-- The constructor arguments participating in the construction-time
validation of `DescrptBlockRepflows.__init__`; all other arguments are
assigned without validation and do not influence these checks. -/
structure RepflowsArgs where
  use_dynamic_sel : Bool
  smooth_edge_update : Bool
  sel_reduce_factor : ℚ
deriving DecidableEq

/-- repflows.py lines 342-349: construction either fails with the dynamic
selection error, fails with the scale-factor error, or returns the
configuration unchanged — there is no silent fallback path. -/
def mkDescrptBlockRepflows (a : RepflowsArgs) :
    Except RepflowsInitError RepflowsArgs :=
  if a.use_dynamic_sel ∧ ¬ a.smooth_edge_update then
    Except.error (RepflowsInitError.notImplementedError
      "smooth_edge_update must be True when use_dynamic_sel is True!")
  else if a.sel_reduce_factor ≤ 0 then
    Except.error (RepflowsInitError.valueError
      ("sel_reduce_factor must be > 0, got " ++ toString a.sel_reduce_factor))
  else Except.ok a

/-- Node embedding tensor `[nb, nall or nloc, n_dim]`. -/
def NodeT : Type := ℕ → ℕ → ℕ → ℝ

/-- Coordinate tensor `[nf, nall, 3]`. -/
def CoordT : Type := ℕ → ℕ → V3

/-- Scalar edge tensor `[nb, nloc, nnei]` (switch values). -/
def SwT : Type := ℕ → ℕ → ℕ → ℝ

/-- Vector edge tensor `[nb, nloc, nnei, 3]` (displacements, h2). -/
def H2T : Type := ℕ → ℕ → ℕ → V3

/-- Normalized environment matrix tensor `[nb, nloc, nnei, 4]`. -/
def Dm4T : Type := ℕ → ℕ → ℕ → Fin 4 → ℝ

/-- Boolean neighbor mask tensor `[nb, nloc, nnei]`. -/
def MaskT : Type := ℕ → ℕ → ℕ → Bool

/-- Integer neighbor list tensor `[nb, nloc, nnei]`. -/
def NlistT : Type := ℕ → ℕ → ℕ → ℤ

/-- Scalar angle tensor `[nf, nloc, a_nnei, a_nnei]`. -/
def AngleInT : Type := ℕ → ℕ → ℕ → ℕ → ℝ

/-- The Python locals threaded through the repflow layer loop
(repflows.py lines 816-1047).  Edge/angle embeddings, the angle switch, the
angle mask and the graph indices are abstract type parameters `E A AS AM IX`:
the loop moves them around but never inspects them. -/
structure LoopState (E A AS AM IX : Type) where
  node_ebd : NodeT
  edge_ebd : E
  angle_ebd : A
  extended_coord_new : CoordT
  dmatrix : Dm4T
  diff : H2T
  h2 : H2T
  sw : SwT
  h2_flat : List V3
  sw_flat : List ℝ
  nlist : NlistT
  nlist_mask : MaskT
  a_nlist : NlistT
  a_nlist_mask : AM
  a_sw : AS
  edge_index : IX
  angle_index : IX
  a_diff_geo : H2T
  angle_input_geo : AngleInT

/-- The arguments handed to one `RepFlowLayer.forward` call
(repflows.py lines 903-917).  Both the dense and the flattened forms of
`h2`/`sw` are carried; the layer consumes whichever matches its mode. -/
structure LayerIn (E A AS AM IX : Type) where
  node_ebd_ext : NodeT
  edge_ebd : E
  h2 : H2T
  h2_flat : List V3
  angle_ebd : A
  nlist : NlistT
  nlist_mask : MaskT
  sw : SwT
  sw_flat : List ℝ
  a_nlist : NlistT
  a_nlist_mask : AM
  a_sw : AS
  edge_index : IX
  angle_index : IX
  diff : H2T

/-- The outputs of one `RepFlowLayer.forward` call: updated node, edge and
angle embeddings plus an optional per-atom coordinate increment. -/
structure LayerOut (E A : Type) where
  node : NodeT
  edge : E
  angle : A
  coord_update : Option CoordT

/-- A message-passing layer, an external collaborator consumed only through
its input/output contract (spec section 6). -/
def LayerFn (E A AS AM IX : Type) : Type :=
  LayerIn E A AS AM IX → LayerOut E A

/-- The configuration and read-only data visible to the layer loop: mode
flags, the extended-to-local index mapping (`mapping_orig`), the injected
border-exchange primitive `comm` (an external collaborator), the environment
parameters and normalization statistics used by the mid-loop geometry
recomputation, and the tensor dimensions. -/
structure LoopCfg where
  update_coord : Bool
  parallel_mode : Bool
  use_loc_mapping : Bool
  use_dynamic_sel : Bool
  mapping : ℕ → ℕ → ℕ
  comm : NodeT → NodeT
  envP : EnvParams
  st : StatsConf
  bsz : ℕ
  nloc : ℕ
  nnei : ℕ
  nall : ℕ

/-- repflows.py lines 823-898: derivation of the extended node embedding —
a plain pass-through or mapping gather in non-parallel mode, and the padded
border exchange in parallel mode (the spin-doubled layout is not modelled;
it only reshuffles rows around the same exchange). -/
def nodeEbdExt (cfg : LoopCfg) (node : NodeT) : NodeT :=
  if cfg.parallel_mode then
    cfg.comm (fun b k d => if k < cfg.nloc then node b k d else 0)
  else if cfg.use_loc_mapping then node
  else fun b k d => node b (cfg.mapping b k) d

/-- The argument bundle passed to the layer at repflows.py lines 903-917. -/
def layerArgs {E A AS AM IX : Type} (cfg : LoopCfg)
    (s : LoopState E A AS AM IX) : LayerIn E A AS AM IX :=
  ⟨nodeEbdExt cfg s.node_ebd, s.edge_ebd, s.h2, s.h2_flat, s.angle_ebd,
    s.nlist, s.nlist_mask, s.sw, s.sw_flat, s.a_nlist, s.a_nlist_mask,
    s.a_sw, s.edge_index, s.angle_index, s.diff⟩

/-- Assemble the `EnvConf` for a mid-loop `prod_env_mat` recomputation from
the current coordinates and a neighbor list. -/
def envConfOf (cfg : LoopCfg) (coord : CoordT) (nl : NlistT) : EnvConf :=
  ⟨nl, coord, cfg.bsz, cfg.nloc, cfg.nnei, cfg.nall⟩

/-- The runtime error raised inside `DescrptBlockRepflows.forward`. -/
inductive ForwardError where
  | notImplementedError : String → ForwardError
deriving DecidableEq

/-- One iteration of the layer loop (repflows.py lines 816-1047): call the
layer, then, when coordinate update is enabled and the layer produced an
increment, either fail fast in parallel mode (line 1007) or broadcast the
increment through the mapping (lines 998-1004), update the extended
coordinates, and re-run `prod_env_mat` against the *same* neighbor list to
refresh `dmatrix`, `diff`, `sw` and `h2` (lines 1017-1045; `.detach()` is a
value-level identity).  No other local is touched. -/
def layerStep {E A AS AM IX : Type} (cfg : LoopCfg) (ll : LayerFn E A AS AM IX)
    (s : LoopState E A AS AM IX) :
    Except ForwardError (LoopState E A AS AM IX) :=
  let out := ll (layerArgs cfg s)
  let s1 := {s with node_ebd := out.node, edge_ebd := out.edge,
                    angle_ebd := out.angle}
  match out.coord_update with
  | none => Except.ok s1
  | some cu =>
    if cfg.update_coord then
      if cfg.parallel_mode then
        Except.error (ForwardError.notImplementedError
          "update_coord in parallel_mode is not supported yet")
      else
        let coordNew : CoordT :=
          fun b k => s1.extended_coord_new b k + cu b (cfg.mapping b k)
        let g2 := envConfOf cfg coordNew s1.nlist
        let dm2 : Dm4T := fun b i j c => envNorm cfg.envP g2 cfg.st b i j c
        let diff2 : H2T := fun b i j => diffOut cfg.envP g2 b i j
        let sw2 : SwT := fun b i j =>
          if s1.nlist_mask b i j then weightOf cfg.envP g2 b i j else 0
        let h2n : H2T := fun b i j => ⟨dm2 b i j 1, dm2 b i j 2, dm2 b i j 3⟩
        Except.ok {s1 with
          extended_coord_new := coordNew,
          dmatrix := dm2, diff := diff2, sw := sw2, h2 := h2n,
          h2_flat :=
            if cfg.use_dynamic_sel then
              maskSelect3 cfg.bsz cfg.nloc cfg.nnei h2n s1.nlist_mask
            else s1.h2_flat,
          sw_flat :=
            if cfg.use_dynamic_sel then
              maskSelect3 cfg.bsz cfg.nloc cfg.nnei sw2 s1.nlist_mask
            else s1.sw_flat}
    else Except.ok s1

/-- The full layer loop `for idx, ll in enumerate(self.layers)`
(repflows.py line 816), propagating the fail-fast error. -/
def runLayers {E A AS AM IX : Type} (cfg : LoopCfg) :
    List (LayerFn E A AS AM IX) → LoopState E A AS AM IX →
    Except ForwardError (LoopState E A AS AM IX)
  | [], s => Except.ok s
  | ll :: rest, s =>
    match layerStep cfg ll s with
    | Except.error e => Except.error e
    | Except.ok s2 => runLayers cfg rest s2

/-- The neighbor-topology components of the loop state: neighbor list, edge
mask, angle neighbor list, angle mask, and the dynamic-mode edge/angle
indices. -/
def topoOf {E A AS AM IX : Type} (s : LoopState E A AS AM IX) :
    NlistT × MaskT × NlistT × AM × IX × IX :=
  (s.nlist, s.nlist_mask, s.a_nlist, s.a_nlist_mask, s.edge_index,
    s.angle_index)

/-- The angle-level quantities computed before the first layer: the angle
displacement, the cosine angle input, the angle smoothing weight, the angle
neighbor list and the angle mask. -/
def angleGeoOf {E A AS AM IX : Type} (s : LoopState E A AS AM IX) :
    H2T × AngleInT × AS × NlistT × AM :=
  (s.a_diff_geo, s.angle_input_geo, s.a_sw, s.a_nlist, s.a_nlist_mask)

/-- Add one constant 3-vector to every atom of every frame of a
configuration (the transformation quantified over by translation
invariance); the neighbor list and all sizes are untouched. -/
def shiftConf (c : V3) (g : EnvConf) : EnvConf :=
  {g with coord := fun b k => g.coord b k + c}

/-- How the claimed behaviour of one coordinate-update iteration reads: the
layer's outputs replace the three embeddings; the extended coordinates are
incremented by the mapped per-atom update; only the edge-level geometry —
`dmatrix`, `diff`, `sw`, `h2` and (in dynamic mode) their re-flattened forms
— is recomputed from the updated coordinates; every angle-level quantity
(`a_diff`, the cosine angle input, `a_sw`, the angle neighbor list and angle
mask) and the whole topology is passed through untouched. -/
def refreshSpec {E A AS AM IX : Type} (cfg : LoopCfg) (nOut : NodeT)
    (eOut : E) (aOut : A) (cu : CoordT) (s : LoopState E A AS AM IX) :
    LoopState E A AS AM IX :=
  let coordNew : CoordT :=
    fun b k => s.extended_coord_new b k + cu b (cfg.mapping b k)
  let g2 := envConfOf cfg coordNew s.nlist
  let dm2 : Dm4T := fun b i j c => envNorm cfg.envP g2 cfg.st b i j c
  let sw2 : SwT := fun b i j =>
    if s.nlist_mask b i j then weightOf cfg.envP g2 b i j else 0
  let h2n : H2T := fun b i j => ⟨dm2 b i j 1, dm2 b i j 2, dm2 b i j 3⟩
  { node_ebd := nOut, edge_ebd := eOut, angle_ebd := aOut,
    extended_coord_new := coordNew,
    dmatrix := dm2,
    diff := fun b i j => diffOut cfg.envP g2 b i j,
    h2 := h2n,
    sw := sw2,
    h2_flat :=
      if cfg.use_dynamic_sel then
        maskSelect3 cfg.bsz cfg.nloc cfg.nnei h2n s.nlist_mask
      else s.h2_flat,
    sw_flat :=
      if cfg.use_dynamic_sel then
        maskSelect3 cfg.bsz cfg.nloc cfg.nnei sw2 s.nlist_mask
      else s.sw_flat,
    nlist := s.nlist, nlist_mask := s.nlist_mask,
    a_nlist := s.a_nlist, a_nlist_mask := s.a_nlist_mask, a_sw := s.a_sw,
    edge_index := s.edge_index, angle_index := s.angle_index,
    a_diff_geo := s.a_diff_geo, angle_input_geo := s.angle_input_geo }

/-- Concrete parameters for witnesses: `rcut = 4`, `rcut_smth = 2`, no
protection, polynomial switch. -/
def pWit : EnvParams := ⟨4, 2, 0, false⟩

/-- Concrete configuration witnessing the excluded-pair claim: one frame,
one local atom of type 0, two extended atoms, slot 0 padded and slot 1
pointing at the type-1 atom. -/
def gWit1 : EnvConf :=
  ⟨fun _ _ j => if j = 0 then -1 else 1,
   fun _ k => ⟨(k : ℝ), 0, 0⟩, 1, 1, 2, 2⟩

/-- Concrete excluded type-pair list: types 0 and 1 do not interact. -/
def exclWit : List (ℕ × ℕ) := [(0, 1)]

/-- Concrete extended atom types: atom `k` has type `k`. -/
def eatypeWit : ℕ → ℕ → ℕ := fun _ k => k

/-- Concrete statistics for the normalization witness: zero mean, unit
standard deviation. -/
def stWit : StatsConf := ⟨fun _ _ => 0, fun _ _ _ => 0, fun _ _ _ => 1⟩

/-- Concrete counterexample configuration: one frame, one local atom at the
origin, a second extended atom at `(-4, -4, -4)`, and every neighbor slot
padded.  With `rcut = 4` the synthetic padding atom lands exactly on the
center atom, so the padded slot's switch input is `0 + 1 = 1 < rcut`. -/
def gCex : EnvConf :=
  ⟨fun _ _ _ => -1,
   fun _ k => if k = 0 then ⟨0, 0, 0⟩ else ⟨-4, -4, -4⟩, 1, 1, 1, 2⟩

/-- A loop configuration with coordinate update enabled, running in
non-parallel mode (the mode in which updates actually proceed). -/
def updCfg (cfg : LoopCfg) : LoopCfg :=
  {cfg with update_coord := true, parallel_mode := false}

/-- A loop configuration with coordinate update enabled, running in
distributed/parallel mode. -/
def parCfg (cfg : LoopCfg) : LoopCfg :=
  {cfg with update_coord := true, parallel_mode := true}

/-- Concrete loop configuration for the parallel-mode witness. -/
def cfgWit : LoopCfg :=
  ⟨true, true, true, false, fun _ _ => 0, id, ⟨4, 2, 0, false⟩,
   ⟨fun _ _ => 0, fun _ _ _ => 0, fun _ _ _ => 1⟩, 1, 1, 1, 1⟩

/-- Concrete all-zero loop state (embeddings instantiated at `Unit`). -/
def sWit : LoopState Unit Unit Unit Unit Unit :=
  ⟨fun _ _ _ => 0, (), (), fun _ _ => 0, fun _ _ _ _ => 0, fun _ _ _ => 0,
   fun _ _ _ => 0, fun _ _ _ => 0, [], [], fun _ _ _ => 0,
   fun _ _ _ => false, fun _ _ _ => 0, (), (), (), (), fun _ _ _ => 0,
   fun _ _ _ _ => 0⟩

/-- Concrete layer that always produces a zero coordinate increment. -/
def llWit : LayerFn Unit Unit Unit Unit Unit :=
  fun _ => ⟨fun _ _ _ => 0, (), (), some (fun _ _ => 0)⟩

/-!
Theorems.  Each claim is settled by exactly one theorem below; shared helper
lemmas precede them.
-/

/-- Any slot whose (possibly rewritten) neighbor-list entry is negative has
zero mask, hence exactly zero weight, environment row and displacement. -/
theorem outputs_zero_of_sentinel (p : EnvParams) (g : EnvConf) (b i j : ℕ)
    (h : g.nlist b i j < 0) :
    weightOf p g b i j = 0 ∧ (∀ c, envRow4 p g b i j c = 0) ∧
    envRow1 p g b i j = 0 ∧ diffOut p g b i j = 0 := by
  have hm : mask01 g b i j = 0 := by simp [mask01, not_le.mpr h]
  refine ⟨?_, fun c => ?_, ?_, ?_⟩
  · rw [weightOf, hm, mul_zero]
  · rw [envRow4, weightOf, hm, mul_zero, mul_zero]
  · rw [envRow1, weightOf, hm, mul_zero, mul_zero]
  · rw [diffOut, hm]; simp

/-- C1: for every configuration and neighbor list, every padded neighbor
slot (sentinel `-1` in the input nlist, including every slot whose
(center-type, neighbor-type) pair is in the excluded-type list, which is
forced to the sentinel before any geometry is built) yields in the
environment matrix builder's output a smoothing weight exactly 0, a weighted
raw environment feature row exactly 0 (in full and in radial-only mode), and
a returned displacement vector exactly 0. -/
theorem padded_or_excluded_slot_zero_contribution (p : EnvParams)
    (excl : List (ℕ × ℕ)) (eatype : ℕ → ℕ → ℕ) (g : EnvConf) (b i j : ℕ)
    (h : g.nlist b i j = -1 ∨
      (eatype b i, eatype b (g.nlist b i j).toNat) ∈ excl ∨
      (eatype b (g.nlist b i j).toNat, eatype b i) ∈ excl) :
    weightOf p {g with nlist := applyExclude excl eatype g.nlist} b i j = 0 ∧
    (∀ c, envRow4 p {g with nlist := applyExclude excl eatype g.nlist} b i j c
      = 0) ∧
    envRow1 p {g with nlist := applyExclude excl eatype g.nlist} b i j = 0 ∧
    diffOut p {g with nlist := applyExclude excl eatype g.nlist} b i j = 0 := by
  have hnl : applyExclude excl eatype g.nlist b i j = -1 := by
    unfold applyExclude excludeMaskOf
    by_cases hs : g.nlist b i j = -1
    · simp [hs]
    · rcases h with h | h
      · exact absurd h hs
      · simp [hs, h]
  exact outputs_zero_of_sentinel p _ b i j
    (by show applyExclude excl eatype g.nlist b i j < 0; rw [hnl]; norm_num)

/-- Witness for C1, exercising the excluded-pair branch: in `gWit1`, slot 1
of the single center atom points at an atom of type 1 while the center has
type 0 and the pair `(0, 1)` is excluded. -/
theorem padded_or_excluded_slot_zero_contribution_witness :
    weightOf pWit {gWit1 with nlist := applyExclude exclWit eatypeWit gWit1.nlist}
      0 0 1 = 0 ∧
    (∀ c, envRow4 pWit
      {gWit1 with nlist := applyExclude exclWit eatypeWit gWit1.nlist} 0 0 1 c
      = 0) ∧
    envRow1 pWit {gWit1 with nlist := applyExclude exclWit eatypeWit gWit1.nlist}
      0 0 1 = 0 ∧
    diffOut pWit {gWit1 with nlist := applyExclude exclWit eatypeWit gWit1.nlist}
      0 0 1 = 0 :=
  padded_or_excluded_slot_zero_contribution pWit exclWit eatypeWit gWit1 0 0 1
    (Or.inr (Or.inl (by simp [eatypeWit, gWit1, exclWit])))

/-- The displacement of every slot is unchanged by a global translation:
both the gathered neighbor coordinate (real or synthetic padding atom) and
the center coordinate shift by the same vector. -/
theorem diffRaw_shift (p : EnvParams) (g : EnvConf) (c : V3) (b i j : ℕ) :
    diffRaw p (shiftConf c g) b i j = diffRaw p g b i j := by
  unfold diffRaw coordR coordPad nlistW shiftConf
  dsimp only
  split_ifs <;> (apply V3.ext_comp <;> simp <;> ring)

/-- C2: translation invariance of the environment matrix builder — adding
the same constant 3-vector to every atom's coordinates (all extended atoms,
all frames) leaves all outputs of `_make_env_mat` (the weighted raw
environment feature in full and radial-only mode, the masked displacement,
and the smoothing weight) exactly unchanged, for every neighbor slot
including padded ones. -/
theorem env_mat_translation_invariant (p : EnvParams) (g : EnvConf) (c : V3)
    (b i j : ℕ) :
    (∀ cc, envRow4 p (shiftConf c g) b i j cc = envRow4 p g b i j cc) ∧
    diffOut p (shiftConf c g) b i j = diffOut p g b i j ∧
    weightOf p (shiftConf c g) b i j = weightOf p g b i j ∧
    envRow1 p (shiftConf c g) b i j = envRow1 p g b i j := by
  have hd := diffRaw_shift p g c b i j
  have hm : mask01 (shiftConf c g) b i j = mask01 g b i j := rfl
  have hlu : lengthUsed p (shiftConf c g) b i j = lengthUsed p g b i j := by
    unfold lengthUsed lengthRaw
    rw [hd]
    rfl
  have hw : weightOf p (shiftConf c g) b i j = weightOf p g b i j := by
    unfold weightOf weightPre
    rw [hlu, hm]
  have ht0 : t0 p (shiftConf c g) b i j = t0 p g b i j := by
    unfold t0; rw [hlu]
  have ht1 : t1 p (shiftConf c g) b i j = t1 p g b i j := by
    unfold t1; rw [hlu, hd]
  refine ⟨fun cc => ?_, ?_, hw, ?_⟩
  · unfold envRow4; rw [ht0, ht1, hw]
  · unfold diffOut; rw [hm, hd]
  · unfold envRow1; rw [ht0, hw]

/-- C4: round-trip of normalization — multiplying `prod_env_mat`'s
normalized output elementwise by `stddev[atype]` and adding `mean[atype]`
recovers exactly the unnormalized raw environment matrix of
`_make_env_mat`, provided every stddev entry is nonzero.  (The normalized
output has the same index space `(b, i, j, c)` as the raw feature by
construction.) -/
theorem prod_env_mat_normalization_roundtrip (p : EnvParams) (g : EnvConf)
    (st : StatsConf) (h : ∀ t j c, st.stddev t j c ≠ 0) (b i j : ℕ)
    (c : Fin 4) :
    envNorm p g st b i j c * st.stddev (st.atype b i) j c +
      st.mean (st.atype b i) j c = envRow4 p g b i j c := by
  have hs := h (st.atype b i) j c
  unfold envNorm
  rw [div_mul_cancel₀ _ hs]
  ring

/-- Witness for C4 at the all-ones statistics and a concrete configuration. -/
theorem prod_env_mat_normalization_roundtrip_witness :
    (∀ t j c, stWit.stddev t j c ≠ 0) ∧
    (∀ (c : Fin 4), envNorm pWit gWit1 stWit 0 0 1 c *
      stWit.stddev (stWit.atype 0 0) 1 c + stWit.mean (stWit.atype 0 0) 1 c =
      envRow4 pWit gWit1 0 0 1 c) :=
  ⟨fun _ _ _ => one_ne_zero,
   fun c => prod_env_mat_normalization_roundtrip pWit gWit1 stWit
     (fun _ _ _ => one_ne_zero) 0 0 1 c⟩

/-- In the counterexample configuration the padded slot's synthetic padding
atom lands exactly on the center atom, so the raw displacement is zero. -/
theorem cex_diffRaw_zero : diffRaw pWit gCex 0 0 0 = 0 := by
  have h : diffRaw pWit gCex 0 0 0 = ⟨0, 0, 0⟩ := by
    apply V3.ext_comp <;>
      norm_num [diffRaw, coordR, coordPad, nlistW, pWit, gCex]
  rw [h]
  rfl

/-- In the counterexample configuration the padded slot's switch input is
`0 + 1 = 1`. -/
theorem cex_lengthUsed : lengthUsed pWit gCex 0 0 0 = 1 := by
  rw [lengthUsed, lengthRaw, cex_diffRaw_zero, vnorm_zero]
  norm_num [gCex]

/-- C5 counterexample: in `gCex` (center at the origin, last extended atom
at `(-4, -4, -4)`, `rcut = 4`, `rcut_smth = 2`, every slot padded) the
distance entering the cutoff computation of the padded slot is `1`, which is
strictly below `rcut`, and the smoothing weight before the mask
multiplication is `1`, not `0` — both "at least rcut" and "weight already 0
before the mask" fail at this concrete input. -/
theorem padding_atom_distance_counterexample :
    ¬(pWit.rcut ≤ lengthUsed pWit gCex 0 0 0) ∧
    weightPre pWit gCex 0 0 0 ≠ 0 := by
  constructor
  · rw [cex_lengthUsed]; norm_num [pWit]
  · have hw : weightPre pWit gCex 0 0 0 = 1 := by
      unfold weightPre
      rw [cex_lengthUsed]
      norm_num [pWit, compute_smooth_weight]
    rw [hw]; norm_num

/-- C5 (amended): for every configuration and every sentinel (`-1`) neighbor
slot, the sentinel index is replaced by the out-of-range index `nall`
selecting the synthetic padding coordinate (last extended atom's position
plus `rcut` in each component); the distance entering the cutoff/smoothing
computation for that slot is the padded displacement norm plus the constant
`1` offset (it is not guaranteed to reach `rcut`), and the slot's returned
smoothing weight is exactly `0` because the mask multiplication zeroes it. -/
theorem padding_sentinel_redirect_and_mask_zero (p : EnvParams) (g : EnvConf)
    (b i j : ℕ) (h : g.nlist b i j = -1) :
    nlistW g b i j = g.nall ∧
    coordR p g b i j = g.coord b (g.nall - 1) + ⟨p.rcut, p.rcut, p.rcut⟩ ∧
    lengthUsed p g b i j = lengthRaw p g b i j + 1 ∧
    weightOf p g b i j = 0 := by
  have hneg : ¬(0 ≤ g.nlist b i j) := by rw [h]; norm_num
  have h1 : nlistW g b i j = g.nall := by simp [nlistW, hneg]
  refine ⟨h1, ?_, ?_, ?_⟩
  · rw [coordR, h1, coordPad, if_neg (lt_irrefl g.nall)]
  · simp [lengthUsed, hneg]
  · exact (outputs_zero_of_sentinel p g b i j (by rw [h]; norm_num)).1

/-- Witness for the amended C5 at the counterexample configuration. -/
theorem padding_sentinel_redirect_and_mask_zero_witness :
    nlistW gCex 0 0 0 = gCex.nall ∧
    coordR pWit gCex 0 0 0 =
      gCex.coord 0 (gCex.nall - 1) + ⟨pWit.rcut, pWit.rcut, pWit.rcut⟩ ∧
    lengthUsed pWit gCex 0 0 0 = lengthRaw pWit gCex 0 0 0 + 1 ∧
    weightOf pWit gCex 0 0 0 = 0 :=
  padding_sentinel_redirect_and_mask_zero pWit gCex 0 0 0 rfl

/-- Membership in the row-major 4-index enumeration is exactly the range
constraint on each component. -/
theorem mem_idx4 {n1 n2 n3 n4 : ℕ} {q : ℕ × ℕ × ℕ × ℕ} :
    q ∈ idx4 n1 n2 n3 n4 ↔
      q.1 < n1 ∧ q.2.1 < n2 ∧ q.2.2.1 < n3 ∧ q.2.2.2 < n4 := by
  obtain ⟨b, i, j, k⟩ := q
  simp only [idx4, List.mem_flatMap, List.mem_map, List.mem_range, Prod.mk.injEq]
  constructor
  · rintro ⟨b1, hb, i1, hi, j1, hj, k1, hk, h1, h2, h3, h4⟩
    subst h1; subst h2; subst h3; subst h4
    exact ⟨hb, hi, hj, hk⟩
  · rintro ⟨hb, hi, hj, hk⟩
    exact ⟨b, hb, i, hi, j, hj, k, hk, rfl, rfl, rfl, rfl⟩

/-- The angle neighbor list keeps an entry exactly when the original entry
is not the sentinel and its masked displacement is strictly inside the angle
cutoff. -/
theorem aNlist_ne_sentinel_iff (pE pA : EnvParams) (g : EnvConf) (b i j : ℕ) :
    aNlist pE pA g b i j ≠ -1 ↔
      g.nlist b i j ≠ -1 ∧ vnorm (diffOut pE g b i j) < pA.rcut := by
  unfold aNlist
  split_ifs with h
  · simp [h]
  · simp [h]

/-- C6: dynamic-mode angle compaction — a `(frame, center, slot_i, slot_j)`
angle entry is kept in the compacted angle arrays if and only if both slots
are valid angle neighbors (in-range, non-sentinel entries of the first
`a_sel` edge slots whose displacement norm is below the angle cutoff
`a_rcut`), and the compacted angle weight of each kept entry is the product
of the two participating neighbors' individual angle smoothing weights. -/
theorem dynamic_angle_compaction_semantics (pE pA : EnvParams) (g : EnvConf)
    (a_sel : ℕ) (b i j k : ℕ) :
    ((b, i, j, k) ∈ keptAngleIdx pE pA g a_sel ↔
      b < g.bsz ∧ i < g.natoms ∧ j < a_sel ∧ k < a_sel ∧
        (g.nlist b i j ≠ -1 ∧ vnorm (diffOut pE g b i j) < pA.rcut) ∧
        (g.nlist b i k ≠ -1 ∧ vnorm (diffOut pE g b i k) < pA.rcut)) ∧
    compactASw pE pA g a_sel =
      (keptAngleIdx pE pA g a_sel).map
        (fun q => aSw pE pA g a_sel q.1 q.2.1 q.2.2.1 *
          aSw pE pA g a_sel q.1 q.2.1 q.2.2.2) := by
  refine ⟨?_, rfl⟩
  unfold keptAngleIdx aPairMask
  rw [List.mem_filter, mem_idx4]
  simp only [Bool.and_eq_true, decide_eq_true_eq, aNlist_ne_sentinel_iff]
  tauto

/-- Lagrange-style Cauchy-Schwarz for 3-vectors. -/
theorem vdot_sq_le (u v : V3) : vdot u v ^ 2 ≤ normSq u * normSq v := by
  simp only [normSq, vdot]
  nlinarith [sq_nonneg (u.vx * v.vy - u.vy * v.vx),
    sq_nonneg (u.vx * v.vz - u.vz * v.vx),
    sq_nonneg (u.vy * v.vz - u.vz * v.vy)]

/-- Cauchy-Schwarz with the square roots taken. -/
theorem abs_vdot_le (u v : V3) : |vdot u v| ≤ vnorm u * vnorm v := by
  rw [vnorm, vnorm, ← Real.sqrt_mul (normSq_nonneg u), ← Real.sqrt_sq_eq_abs]
  exact Real.sqrt_le_sqrt (vdot_sq_le u v)

/-- The Euclidean norm scales by a nonnegative scalar factor. -/
theorem vnorm_vsmul (c : ℝ) (hc : 0 ≤ c) (v : V3) :
    vnorm (vsmul c v) = c * vnorm v := by
  unfold vnorm normSq vdot vsmul
  dsimp only
  have h : c * v.vx * (c * v.vx) + c * v.vy * (c * v.vy) +
      c * v.vz * (c * v.vz) =
      c ^ 2 * (v.vx * v.vx + v.vy * v.vy + v.vz * v.vz) := by ring
  rw [h, Real.sqrt_mul (sq_nonneg c), Real.sqrt_sq hc]

/-- Each protected direction vector has norm `r / (r + 1e-6) ≤ 1`. -/
theorem vnorm_normalizedDiff_le_one (pE pA : EnvParams) (g : EnvConf)
    (a_sel : ℕ) (b i j : ℕ) :
    vnorm (normalizedDiff pE pA g a_sel b i j) ≤ 1 := by
  have hr0 : 0 ≤ vnorm (aDiff pE pA g a_sel b i j) := vnorm_nonneg _
  have heps : (0 : ℝ) < eps6 := by unfold eps6; norm_num
  have hpos : 0 < vnorm (aDiff pE pA g a_sel b i j) + eps6 := by linarith
  unfold normalizedDiff
  rw [vnorm_vsmul _ (by positivity) _]
  rw [one_div, inv_mul_eq_div]
  rw [div_le_one hpos]
  linarith

/-- C7: every entry of the pairwise cosine matrix fed to the angle embedding
(built from direction vectors normalized with the 1e-6 protection, then
scaled by `1 - 1e-6`) has absolute value at most `1 - 1e-6`; in particular
it is strictly inside `(-1, 1)` and never hits the singular points of an
inverse-trigonometric function. -/
theorem cosine_matrix_bounded_away_from_one (pE pA : EnvParams)
    (g : EnvConf) (a_sel : ℕ) (b i j k : ℕ) :
    |cosineIJ pE pA g a_sel b i j k| ≤ 1 - eps6 ∧
    |cosineIJ pE pA g a_sel b i j k| < 1 := by
  have heps : (0 : ℝ) < eps6 := by unfold eps6; norm_num
  have h4 : (0 : ℝ) ≤ 1 - eps6 := by unfold eps6; norm_num
  have hbound : |cosineIJ pE pA g a_sel b i j k| ≤ 1 - eps6 := by
    unfold cosineIJ
    rw [abs_mul, abs_of_nonneg h4]
    have h1 := abs_vdot_le (normalizedDiff pE pA g a_sel b i j)
      (normalizedDiff pE pA g a_sel b i k)
    have h2 := vnorm_normalizedDiff_le_one pE pA g a_sel b i j
    have h3 := vnorm_normalizedDiff_le_one pE pA g a_sel b i k
    have h5 : 0 ≤ vnorm (normalizedDiff pE pA g a_sel b i j) := vnorm_nonneg _
    have h6 : 0 ≤ vnorm (normalizedDiff pE pA g a_sel b i k) := vnorm_nonneg _
    have hprod : vnorm (normalizedDiff pE pA g a_sel b i j) *
        vnorm (normalizedDiff pE pA g a_sel b i k) ≤ 1 := by
      have := mul_le_mul h2 h3 h6 zero_le_one
      simpa using this
    have hd1 := le_trans h1 hprod
    calc |vdot (normalizedDiff pE pA g a_sel b i j)
          (normalizedDiff pE pA g a_sel b i k)| * (1 - eps6)
        ≤ 1 * (1 - eps6) := mul_le_mul_of_nonneg_right hd1 h4
      _ = 1 - eps6 := one_mul _
  exact ⟨hbound, lt_of_le_of_lt hbound (by linarith)⟩

/-- C8: construction-time configuration errors — constructing
`DescrptBlockRepflows` with dynamic selection enabled while the
smooth-edge-update policy is disabled raises the descriptive
`NotImplementedError` of repflows.py line 343; constructing it with a
non-positive `sel_reduce_factor` raises the descriptive `ValueError` of
line 347; and in either bad configuration construction never returns a
configuration (no silent fallback). -/
theorem repflows_init_config_errors (a : RepflowsArgs) :
    (a.use_dynamic_sel = true → a.smooth_edge_update = false →
      mkDescrptBlockRepflows a = Except.error
        (RepflowsInitError.notImplementedError
          "smooth_edge_update must be True when use_dynamic_sel is True!")) ∧
    ((a.use_dynamic_sel = false ∨ a.smooth_edge_update = true) →
      a.sel_reduce_factor ≤ 0 →
      mkDescrptBlockRepflows a = Except.error
        (RepflowsInitError.valueError
          ("sel_reduce_factor must be > 0, got " ++
            toString a.sel_reduce_factor))) ∧
    (((a.use_dynamic_sel = true ∧ a.smooth_edge_update = false) ∨
        a.sel_reduce_factor ≤ 0) →
      ∀ b, mkDescrptBlockRepflows a ≠ Except.ok b) := by
  unfold mkDescrptBlockRepflows
  refine ⟨?_, ?_, ?_⟩
  · intro h1 h2
    rw [if_pos ⟨h1, by simp [h2]⟩]
  · intro h1 h2
    rw [if_neg ?_, if_pos h2]
    rintro ⟨hu, hs⟩
    rcases h1 with h | h
    · rw [h] at hu; cases hu
    · exact hs (by simp [h])
  · intro h1 b
    rcases h1 with ⟨hu, hs⟩ | hf
    · rw [if_pos ⟨hu, by simp [hs]⟩]
      simp
    · by_cases hc : a.use_dynamic_sel = true ∧ ¬(a.smooth_edge_update = true)
      · rw [if_pos hc]
        simp
      · rw [if_neg hc, if_pos hf]
        simp

/-- Witness for C8 at concrete bad configurations. -/
theorem repflows_init_config_errors_witness :
    mkDescrptBlockRepflows ⟨true, false, 10⟩ = Except.error
      (RepflowsInitError.notImplementedError
        "smooth_edge_update must be True when use_dynamic_sel is True!") ∧
    mkDescrptBlockRepflows ⟨false, false, -1⟩ = Except.error
      (RepflowsInitError.valueError
        ("sel_reduce_factor must be > 0, got " ++ toString (-1 : ℚ))) ∧
    ∀ b, mkDescrptBlockRepflows ⟨true, false, 10⟩ ≠ Except.ok b :=
  ⟨(repflows_init_config_errors ⟨true, false, 10⟩).1 rfl rfl,
   (repflows_init_config_errors ⟨false, false, -1⟩).2.1 (Or.inl rfl)
     (by norm_num),
   (repflows_init_config_errors ⟨true, false, 10⟩).2.2
     (Or.inl ⟨rfl, rfl⟩)⟩

/-- In non-parallel mode a layer-loop step always succeeds and leaves both
the topology and the frozen angle-level quantities unchanged. -/
theorem layerStep_nonparallel {E A AS AM IX : Type} (cfg : LoopCfg)
    (ll : LayerFn E A AS AM IX) (s : LoopState E A AS AM IX)
    (hpar : cfg.parallel_mode = false) :
    ∃ s2, layerStep cfg ll s = Except.ok s2 ∧ topoOf s2 = topoOf s ∧
      angleGeoOf s2 = angleGeoOf s := by
  simp only [layerStep]
  split
  · exact ⟨_, rfl, rfl, rfl⟩
  · split
    · split
      · rename_i hp
        rw [hpar] at hp
        cases hp
      · exact ⟨_, rfl, rfl, rfl⟩
    · exact ⟨_, rfl, rfl, rfl⟩

/-- Running any list of layers preserves every projection of the state that
every single step preserves, and cannot fail if no step fails. -/
theorem runLayers_proj {E A AS AM IX : Type} {β : Type} (cfg : LoopCfg)
    (f : LoopState E A AS AM IX → β)
    (hstep : ∀ ll s, ∃ s2, layerStep cfg ll s = Except.ok s2 ∧ f s2 = f s) :
    ∀ (lls : List (LayerFn E A AS AM IX)) (s : LoopState E A AS AM IX),
      (runLayers cfg lls s).map f = Except.ok (f s) := by
  intro lls
  induction lls with
  | nil => intro s; simp [runLayers, Except.map]
  | cons ll rest ih =>
    intro s
    obtain ⟨s2, hs2, hf⟩ := hstep ll s
    simp only [runLayers, hs2]
    rw [ih s2, hf]

/-- C3: topology invariance of the layer loop under coordinate update —
with coordinate update enabled (non-parallel mode, where updates actually
proceed), after any prefix of the layer stack the neighbor-list tensor, the
neighbor mask, the angle neighbor list, the angle mask, and the dynamic-mode
edge/angle indices all equal the values built before the first layer, and
the per-layer environment-matrix re-run inside `layerStep` reads its
neighbor list from exactly this unchanged state component. -/
theorem layer_loop_topology_invariant {E A AS AM IX : Type} (cfg : LoopCfg)
    (lls : List (LayerFn E A AS AM IX)) (s : LoopState E A AS AM IX)
    (k : ℕ) :
    (runLayers (updCfg cfg) (lls.take k) s).map topoOf
      = Except.ok (topoOf s) :=
  runLayers_proj (updCfg cfg) topoOf
    (fun ll s1 => by
      obtain ⟨s2, h1, h2, _⟩ := layerStep_nonparallel (updCfg cfg) ll s1 rfl
      exact ⟨s2, h1, h2⟩)
    (lls.take k) s

/-- With coordinate update enabled in parallel mode, the step that receives
a coordinate increment fails fast with the explicit error. -/
theorem layerStep_parallel_error {E A AS AM IX : Type} (cfg : LoopCfg)
    (ll : LayerFn E A AS AM IX) (s : LoopState E A AS AM IX)
    (hupd : cfg.update_coord = true) (hpar : cfg.parallel_mode = true)
    (hcu : (ll (layerArgs cfg s)).coord_update ≠ none) :
    layerStep cfg ll s = Except.error (ForwardError.notImplementedError
      "update_coord in parallel_mode is not supported yet") := by
  cases hc : (ll (layerArgs cfg s)).coord_update with
  | none => exact absurd hc hcu
  | some cu => simp [layerStep, hc, hupd, hpar]

/-- Splitting a layer list splits the run, propagating the first error. -/
theorem runLayers_append {E A AS AM IX : Type} (cfg : LoopCfg)
    (as bs : List (LayerFn E A AS AM IX)) (s : LoopState E A AS AM IX) :
    runLayers cfg (as ++ bs) s =
      match runLayers cfg as s with
      | Except.error e => Except.error e
      | Except.ok s2 => runLayers cfg bs s2 := by
  induction as generalizing s with
  | nil => simp [runLayers]
  | cons a as ih =>
    simp only [List.cons_append, runLayers]
    cases layerStep cfg a s with
    | error e => rfl
    | ok s2 => exact ih s2

/-- C9: unsupported combination — with coordinate update enabled and the
forward pass in distributed/parallel mode, the first time a layer produces a
coordinate increment the loop raises the explicit "not supported yet" error,
and the run never returns results (so no coordinate update is ever
applied). -/
theorem update_coord_parallel_fails_fast {E A AS AM IX : Type}
    (cfg : LoopCfg) (pre : List (LayerFn E A AS AM IX))
    (ll : LayerFn E A AS AM IX) (rest : List (LayerFn E A AS AM IX))
    (s s1 : LoopState E A AS AM IX)
    (hpre : runLayers (parCfg cfg) pre s = Except.ok s1)
    (hcu : (ll (layerArgs (parCfg cfg) s1)).coord_update ≠ none) :
    runLayers (parCfg cfg) (pre ++ ll :: rest) s =
      Except.error (ForwardError.notImplementedError
        "update_coord in parallel_mode is not supported yet") ∧
    ∀ s2, runLayers (parCfg cfg) (pre ++ ll :: rest) s ≠ Except.ok s2 := by
  have hstep := layerStep_parallel_error (parCfg cfg) ll s1 rfl rfl hcu
  have hmain : runLayers (parCfg cfg) (pre ++ ll :: rest) s =
      Except.error (ForwardError.notImplementedError
        "update_coord in parallel_mode is not supported yet") := by
    rw [runLayers_append, hpre]
    simp only [runLayers, hstep]
  refine ⟨hmain, fun s2 h => ?_⟩
  rw [hmain] at h
  cases h

/-- Witness for C9: an empty prefix, one concrete layer that produces a
(zero) coordinate increment, and the all-zero state. -/
theorem update_coord_parallel_fails_fast_witness :
    runLayers (parCfg cfgWit) ([] ++ llWit :: []) sWit =
      Except.error (ForwardError.notImplementedError
        "update_coord in parallel_mode is not supported yet") :=
  (update_coord_parallel_fails_fast cfgWit [] llWit [] sWit sWit rfl
    (by simp [llWit])).1

/-- C10: the per-layer geometry refresh recomputes only the edge-level
quantities, and the angle-level quantities are never refreshed — after any
prefix of the layer stack (coordinate update enabled, non-parallel mode) the
angle displacement, the cosine angle input, the angle smoothing weight, the
angle neighbor list and the angle masks still equal the values computed once
before the first layer; and a step whose layer emits a coordinate increment
produces exactly the `refreshSpec` state: embeddings from the layer,
coordinates incremented, `dmatrix`/`diff`/`sw`/`h2` (and their dynamic
re-flattenings) recomputed from the updated coordinates, everything
angle-level and the topology passed through untouched. -/
theorem coord_refresh_edge_only_angle_frozen {E A AS AM IX : Type}
    (cfg : LoopCfg) (lls : List (LayerFn E A AS AM IX))
    (s : LoopState E A AS AM IX) (k : ℕ) (nOut : NodeT) (eOut : E)
    (aOut : A) (cu : CoordT) :
    (runLayers (updCfg cfg) (lls.take k) s).map angleGeoOf
      = Except.ok (angleGeoOf s) ∧
    layerStep (updCfg cfg) (fun _ => ⟨nOut, eOut, aOut, some cu⟩) s =
      Except.ok (refreshSpec (updCfg cfg) nOut eOut aOut cu s) := by
  constructor
  · exact runLayers_proj (updCfg cfg) angleGeoOf
      (fun ll s1 => by
        obtain ⟨s2, h1, _, h3⟩ := layerStep_nonparallel (updCfg cfg) ll s1 rfl
        exact ⟨s2, h1, h3⟩)
      (lls.take k) s
  · rfl

end

end DPA3
